import Mathlib

/-
  Verification of the request-dispatch-and-cache layer of `model_utils.py`.

  This file gives a shallow embedding of the module's data model and
  operations and proves properties about them:

  - prompts are lists of role/content messages; provider responses, cache
    values and generation configs are JSON-like values (`JVal`), with
    Python floats modelled as exact rationals;
  - the external HTTP boundary is modelled by a deterministic oracle
    `net : RequestData → JVal` standing for the provider's parsed JSON
    reply; every request actually dispatched is recorded in a trace, so
    that the number and shape of network calls is observable;
  - exceptions (KeyError, IndexError, TypeError, AssertionError,
    json.JSONDecodeError) are modelled with `Except String`;
  - the cache file is modelled at the record level: each line of the file
    is either a decoded record with `prompt` and `completion` fields, or a
    line on which `json.loads` fails;
  - `tenacity` retry decorators are modelled by explicit `RetryPolicy`
    values together with an attempt-counting executor `retryExec`
    (the module-level functions themselves are deterministic, so a retry
    around them never changes their outcome);
  - the dynamically typed call of `model_call_wrapper` performed by
    `cached_generate` when `cache is None` (which passes its arguments in
    an order different from the wrapper's parameter list) is embedded via
    the dynamic argument type `PyObj`, so that the run-time type errors
    Python would raise are reproduced faithfully.

  String primitives (lower-casing, substring search, serialization) are
  implemented structurally over the character lists of `String` so that
  all definitions evaluate by kernel reduction.
-/

namespace ModelUtils

/-- One turn of a conversation: a Python dict with a role and text content.
The `content` → `parts` key rename performed in place by the Gemini adapter
is outside this two-field model of a message and is noted where it occurs. -/
structure Message where
  role : String
  content : String
deriving DecidableEq, Repr

/-- JSON-like values: parsed provider responses, cache values, generation
config entries.  Python floats are modelled as exact rationals. -/
inductive JVal where
  | null
  | num (q : ℚ)
  | str (s : String)
  | arr (xs : List JVal)
  | obj (fields : List (String × JVal))

/-- An in-memory cache / Python dict with string keys, in insertion order. -/
abbrev Cache := List (String × JVal)

/-- A generation config: recognized options merged into the request body. -/
abbrev GenConfig := List (String × JVal)

/-- The provider family selected by `model_call_wrapper`'s name matching. -/
inductive Adapter where
  | openai
  | gemini
  | gemma
  | claude
deriving DecidableEq, Repr

/-- One outgoing provider request, as observed at the network boundary:
which adapter sent it, the model field of the payload, the message list as
sent, and the config options merged into the payload. -/
structure RequestData where
  adapter : Adapter
  model : String
  messages : List Message
  config : GenConfig

/-- The outcome of one `model_call_wrapper` call: the wrapper's return value
(`none` models Python's implicit `return None` when no adapter matches), the
adapter branch taken, and the trace of requests sent. -/
structure CallResult where
  result : Option (List JVal)
  adapter : Option Adapter
  requests : List RequestData

/-- A dynamically typed Python argument: either a string or a batch of
message lists.  Used to embed the positional call `model_call_wrapper(
batch_prompts, model_name, model_url, ...)` made on the cache-less path. -/
inductive PyObj where
  | str (s : String)
  | batch (b : List (List Message))

/-- One line of the cache file, as seen by `json.loads`: either a decoded
record with `prompt` and `completion` fields, or a malformed line on which
decoding fails. -/
inductive FileLine where
  | record (prompt : String) (completion : JVal)
  | malformed

/-- The value returned by `cached_generate`: the raw wrapper result on the
cache-less path, otherwise the pair of extracted texts and total cost. -/
inductive GenResult where
  | raw (r : Option (List JVal))
  | withCost (texts : List JVal) (cost : ℚ)

/-- The observable outcome of a successful `cached_generate` call: its
return value, the final state of the in-memory cache and of the cache file,
the caller-visible state of the prompt list (the code mutates it in place
for reasoning models), the final value of the generation-config variable,
and the trace of requests dispatched during the call. -/
structure GenOutcome where
  result : GenResult
  cache : Option Cache
  cacheFile : List FileLine
  batchPrompts : List (List Message)
  generationConfig : GenConfig
  requests : List RequestData

/-- Kernel-reducible test that a character list begins with a pattern. -/
def listBeginsWith : List Char → List Char → Bool
  | _, [] => true
  | [], _ :: _ => false
  | a :: as, b :: bs => a == b && listBeginsWith as bs

/-- Kernel-reducible contiguous-subsequence test on character lists. -/
def listContainsSeq (pat : List Char) : List Char → Bool
  | [] => listBeginsWith [] pat
  | c :: cs => listBeginsWith (c :: cs) pat || listContainsSeq pat cs

/-- Python `s.startswith(pat)`. -/
def strBeginsWith (s pat : String) : Bool := listBeginsWith s.data pat.data

/-- Python `pat in s` (substring containment). -/
def strContainsSub (s pat : String) : Bool := listContainsSeq pat.data s.data

/-- Python `s.lower()`. -/
def strToLower (s : String) : String := ⟨s.data.map Char.toLower⟩

/-- Python truthiness of the values that reach `if not batch_messages`. -/
def pyTruthy : PyObj → Bool
  | .str s => !s.data.isEmpty
  | .batch b => !b.isEmpty

/-- Lookup in a Python dict modelled as an association list. -/
def assocGet {α : Type} : List (String × α) → String → Option α
  | [], _ => none
  | kv :: rest, k => if kv.1 = k then some kv.2 else assocGet rest k

/-- Python `d[k] = v`: replace the value at an existing key in place,
otherwise append a new entry (insertion order of dicts). -/
def dictSet {α : Type} : List (String × α) → String → α → List (String × α)
  | [], k, v => [(k, v)]
  | kv :: rest, k, v => if kv.1 = k then (k, v) :: rest else kv :: dictSet rest k v

/-- Python `k in v` for the value shapes a cache entry or parsed response
can take: key membership for dicts, substring for strings, element equality
for lists; numbers and null are not iterable and raise. -/
def pyMem (k : String) : JVal → Except String Bool
  | .obj fields => .ok (assocGet fields k).isSome
  | .str s => .ok (strContainsSub s k)
  | .arr xs => .ok (xs.any (fun x => match x with | .str t => t == k | _ => false))
  | .num _ => .error "TypeError: argument of type is not iterable"
  | .null => .error "TypeError: argument of type is not iterable"

/-- Python `v[k]` for a string key: dict lookup (KeyError when absent),
TypeError on non-dict shapes. -/
def subKey (v : JVal) (k : String) : Except String JVal :=
  match v with
  | .obj fields =>
    match assocGet fields k with
    | some x => .ok x
    | none => .error ("KeyError: " ++ k)
  | .str _ => .error "TypeError: string indices must be integers"
  | .arr _ => .error "TypeError: list indices must be integers"
  | .num _ => .error "TypeError: value is not subscriptable"
  | .null => .error "TypeError: value is not subscriptable"

/-- Python `v[i]` for a nonnegative integer index. -/
def subIdx (v : JVal) (i : Nat) : Except String JVal :=
  match v with
  | .arr xs =>
    match xs.get? i with
    | some x => .ok x
    | none => .error "IndexError: list index out of range"
  | .str s =>
    match s.data.get? i with
    | some ch => .ok (.str (String.singleton ch))
    | none => .error "IndexError: string index out of range"
  | .obj _ => .error "KeyError: integer key"
  | .num _ => .error "TypeError: value is not subscriptable"
  | .null => .error "TypeError: value is not subscriptable"

/-- The `GPT_COSTS` table: per-token prices of the cost-tracked models,
with the float literals `5 / 1000000` etc. as exact rationals. -/
def GPT_COSTS : List (String × List (String × ℚ)) :=
  [("gpt-4o",
     [("prompt_tokens", (5 : ℚ) / 1000000), ("completion_tokens", (15 : ℚ) / 1000000)]),
   ("o1-preview",
     [("prompt_tokens", (15 : ℚ) / 1000000), ("completion_tokens", (60 : ℚ) / 1000000)]),
   ("o1",
     [("prompt_tokens", (15 : ℚ) / 1000000), ("completion_tokens", (60 : ℚ) / 1000000)])]

/-- The `CLAUDE_MODELS` allow-list. -/
def CLAUDE_MODELS : List String := ["claude-3-5-sonnet-20241022"]

/-- Replay of cache-file lines into the in-memory mapping: each decoded
record assigns `cache[line.prompt] = line.completion`; a malformed line
makes `json.loads` raise a decode error. -/
def loadLines (cache : Cache) : List FileLine → Except String Cache
  | [] => .ok cache
  | .record p c :: rest => loadLines (dictSet cache p c) rest
  | .malformed :: _ => .error "JSONDecodeError"

/-- The function `load_cache_file`: `none` models a path for which
`os.path.exists` is false, which yields an empty mapping. -/
def load_cache_file : Option (List FileLine) → Except String Cache
  | none => .ok []
  | some lines => loadLines [] lines

/-- JSON string escaping for the characters relevant here (quote,
backslash, newline); other characters are emitted verbatim. -/
def jsonEscape (s : String) : String :=
  String.join (s.data.map (fun c =>
    if c = '\"' then "\\\""
    else if c = '\\' then "\\\\"
    else if c = '\n' then "\\n"
    else String.singleton c))

/-- A JSON string literal. -/
def jsonStr (s : String) : String := "\"" ++ jsonEscape s ++ "\""

/-- Serialization of one message dict, with `json.dumps` default
separators and the role/content insertion order of the message dicts. -/
def jsonifyMessage (m : Message) : String :=
  "\x7b" ++ jsonStr "role" ++ ": " ++ jsonStr m.role ++ ", "
    ++ jsonStr "content" ++ ": " ++ jsonStr m.content ++ "\x7d"

/-- Kernel-reducible comma-space interleaving, as in `json.dumps`. -/
def joinWithCommas : List String → String
  | [] => ""
  | [x] => x
  | x :: y :: rest => x ++ ", " ++ joinWithCommas (y :: rest)

/-- The function `jsonify_prompt`: `json.dumps` of a list of messages. -/
def jsonify_prompt (prompt : List Message) : String :=
  "[" ++ joinWithCommas (prompt.map jsonifyMessage) ++ "]"

/-- A `tenacity` wait strategy, kept as data: only the attempt bound has
operational meaning in this embedding. -/
inductive WaitPolicy where
  | randomExponential (multiplier : Nat) (max : Nat)
  | fixed (seconds : Nat)
deriving DecidableEq, Repr

/-- A `tenacity` retry decoration: attempt bound and wait strategy. -/
structure RetryPolicy where
  maxAttempts : Nat
  wait : WaitPolicy
deriving DecidableEq, Repr

/-- The decoration of `openai_request`:
`stop_after_attempt(10)`, `wait_random_exponential(multiplier=1, max=60)`. -/
def openai_request_retry : RetryPolicy :=
  { maxAttempts := 10, wait := .randomExponential 1 60 }

/-- The decoration of `claude_request`: same bound and wait as above. -/
def claude_request_retry : RetryPolicy :=
  { maxAttempts := 10, wait := .randomExponential 1 60 }

/-- The decoration of `model_call_wrapper`:
`stop_after_attempt(10)`, `wait_fixed(20)`. -/
def model_call_wrapper_retry : RetryPolicy :=
  { maxAttempts := 10, wait := .fixed 20 }

/-- Attempt loop of `tenacity.retry`: `call i` is attempt number `i + 1`;
`n` further attempts are allowed after the current one.  Returns the final
outcome (the last failure is re-raised once attempts are exhausted) and the
number of attempts performed. -/
def retryGo {α : Type} (call : Nat → Except String α) : Nat → Nat → Except String α × Nat
  | i, 0 => (call i, 1)
  | i, n + 1 =>
    match call i with
    | .ok a => (.ok a, 1)
    | .error _ =>
      let r := retryGo call (i + 1) n
      (r.1, r.2 + 1)

/-- Run a call under a retry policy, counting attempts. -/
def retryExec {α : Type} (policy : RetryPolicy) (call : Nat → Except String α) :
    Except String α × Nat :=
  retryGo call 0 (policy.maxAttempts - 1)

/-- The function `openai_request` (one attempt): posts `data` and asserts
that the parsed response has a `choices` field, re-raising otherwise.  The
oracle `net` stands for `requests.post(...).json()`. -/
def openai_request (net : RequestData → JVal) (data : RequestData) : Except String JVal :=
  let response := net data
  match pyMem "choices" response with
  | .error e => .error e
  | .ok true => .ok response
  | .ok false => .error "AssertionError"

/-- The function `claude_request` (one attempt): asserts a `content` field. -/
def claude_request (net : RequestData → JVal) (data : RequestData) : Except String JVal :=
  let response := net data
  match pyMem "content" response with
  | .error e => .error e
  | .ok true => .ok response
  | .ok false => .error "AssertionError"

/-- `openai_request` under its retry decoration, against an
attempt-indexed oracle: result and number of attempts performed. -/
def openai_request_retried (net : Nat → RequestData → JVal) (data : RequestData) :
    Except String JVal × Nat :=
  retryExec openai_request_retry (fun i => openai_request (net i) data)

/-- `claude_request` under its retry decoration. -/
def claude_request_retried (net : Nat → RequestData → JVal) (data : RequestData) :
    Except String JVal × Nat :=
  retryExec claude_request_retry (fun i => claude_request (net i) data)

/-- Conversion of a `system` turn to a `user` turn with the same content,
as done by the Gemma preprocessing, the Gemini and Claude adapters, and the
reasoning-model rewrite in `cached_generate`. -/
def systemToUser (m : Message) : Message :=
  if m.role = "system" then { role := "user", content := m.content } else m

/-- First pass of `process_gemma_messages`, inner loop: `cur` is the last
appended processed message (`processed_messages[-1]`), `done` holds the
earlier processed messages in reverse.  A message whose converted role
equals the last role is merged into `cur` by appending its content after a
blank line; otherwise it starts a new processed message. -/
def mergeGo (cur : Message) (done : List Message) : List Message → List Message
  | [] => (cur :: done).reverse
  | m :: rest =>
    let m' := systemToUser m
    if m'.role = cur.role then
      mergeGo { role := cur.role, content := cur.content ++ "\n\n" ++ m'.content } done rest
    else
      mergeGo m' (cur :: done) rest

/-- First pass of `process_gemma_messages`: convert `system` to `user` and
combine consecutive same-role messages. -/
def mergeMessages : List Message → List Message
  | [] => []
  | m :: rest => mergeGo (systemToUser m) [] rest

/-- Second pass of `process_gemma_messages`, one loop iteration at index
`i`: prepend a dummy user message before a non-user first message, insert a
filler turn between two consecutive same-role messages, then append the
message itself. -/
def pass2Step (final : List Message) (i : Nat) (message : Message) : List Message :=
  let final1 :=
    if i = 0 ∧ message.role ≠ "user" then final ++ [{ role := "user", content := "Hello" }]
    else final
  let final2 :=
    if 0 < i ∧ final1.getLast?.map Message.role = some message.role then
      if message.role = "user" then final1 ++ [{ role := "assistant", content := "I understand." }]
      else final1 ++ [{ role := "user", content := "Please continue." }]
    else final1
  final2 ++ [message]

/-- Second pass of `process_gemma_messages`: the `enumerate` loop. -/
def pass2Go (i : Nat) (final : List Message) : List Message → List Message
  | [] => final
  | m :: rest => pass2Go (i + 1) (pass2Step final i m) rest

/-- The function `process_gemma_messages`. -/
def process_gemma_messages (messages : List Message) : List Message :=
  pass2Go 0 [] (mergeMessages messages)

/-- The role-alternation relation of adjacent turns. -/
def roleNe (a b : Message) : Prop := a.role ≠ b.role

/-- A role the Gemma preprocessing is allowed to emit. -/
def RoleOK (m : Message) : Prop := m.role = "user" ∨ m.role = "assistant"

/-- The payload of the OpenAI-compatible branch:
`data = (model: model_name, messages: messages, **generation_config)`. -/
def openai_data (model_name : String) (cfg : GenConfig) (ms : List Message) : RequestData :=
  { adapter := .openai, model := model_name, messages := ms, config := cfg }

/-- The request sent by the Gemini branch: the model is constructed from
`model_url`, `system` roles are rewritten to `user` (an in-place mutation
in the source, also renaming `content` to `parts`, which two-field
messages do not represent), and no generation config is forwarded. -/
def gemini_data (model_url : String) (ms : List Message) : RequestData :=
  { adapter := .gemini, model := model_url, messages := ms.map systemToUser, config := [] }

/-- The config forced by the Gemma branch regardless of caller input. -/
def gemma_config : GenConfig := [("temperature", .num 0), ("max_tokens", .num 512)]

/-- The payload of the Gemma branch: preprocessed messages, forced config. -/
def gemma_data (model_name : String) (ms : List Message) : RequestData :=
  { adapter := .gemma, model := model_name, messages := process_gemma_messages ms,
    config := gemma_config }

/-- The payload of the Claude branch: `system` roles rewritten to `user`
(in place in the source), config merged verbatim. -/
def claude_data (model_name : String) (cfg : GenConfig) (ms : List Message) : RequestData :=
  { adapter := .claude, model := model_name, messages := ms.map systemToUser, config := cfg }

/-- The Gemma branch's `get_response`: post the payload, then extract
`choices[0].message.content` and strip surrounding whitespace; any shape
mismatch re-raises after logging. -/
def gemma_response (net : RequestData → JVal) (model_name : String) (ms : List Message) :
    Except String JVal :=
  let response := net (gemma_data model_name ms)
  match subKey response "choices" with
  | .error e => .error e
  | .ok choices =>
    match subIdx choices 0 with
    | .error e => .error e
    | .ok c0 =>
      match subKey c0 "message" with
      | .error e => .error e
      | .ok msg =>
        match subKey msg "content" with
        | .ok (.str s) => .ok (.str s.trim)
        | .ok _ => .error "AttributeError: strip"
        | .error e => .error e

/-- The inner `get_batch_responses`: sequential when parallel calls are
disabled or the batch has at most one element, otherwise an order-
preserving concurrent map (`ThreadPoolExecutor.map`); with a deterministic
per-request function both give the in-order list of results, and the first
exception propagates. -/
def get_batch_responses (parallel_model_calls : Bool) (batch_messages : List (List Message))
    (get_response : List Message → Except String JVal) : Except String (List JVal) :=
  if !parallel_model_calls || batch_messages.length ≤ 1 then
    batch_messages.mapM get_response
  else
    batch_messages.mapM get_response

/-- Adapter selection and dispatch of `model_call_wrapper` (everything
after the empty-batch early return): the known-cost table first, then
case-insensitive substring matches for `gemini` and `gemma`, then the
Claude allow-list; no match falls through to Python's implicit
`return None` with no adapter run. -/
def model_call_wrapper_core (net : RequestData → JVal) (model_name model_url : String)
    (batch_messages : List (List Message)) (generation_config : GenConfig)
    (parallel_model_calls : Bool) : Except String CallResult :=
  if (assocGet GPT_COSTS model_name).isSome then
    match get_batch_responses parallel_model_calls batch_messages
        (fun ms => openai_request net (openai_data model_name generation_config ms)) with
    | .error e => .error e
    | .ok rs =>
      .ok { result := some rs, adapter := some .openai,
            requests := batch_messages.map (openai_data model_name generation_config) }
  else if strContainsSub (strToLower model_name) "gemini" then
    match get_batch_responses parallel_model_calls batch_messages
        (fun ms => .ok (net (gemini_data model_url ms))) with
    | .error e => .error e
    | .ok rs =>
      .ok { result := some rs, adapter := some .gemini,
            requests := batch_messages.map (gemini_data model_url) }
  else if strContainsSub (strToLower model_name) "gemma" then
    match get_batch_responses parallel_model_calls batch_messages
        (fun ms => gemma_response net model_name ms) with
    | .error e => .error e
    | .ok rs =>
      .ok { result := some rs, adapter := some .gemma,
            requests := batch_messages.map (gemma_data model_name) }
  else if CLAUDE_MODELS.contains model_name then
    match get_batch_responses parallel_model_calls batch_messages
        (fun ms => claude_request net (claude_data model_name generation_config ms)) with
    | .error e => .error e
    | .ok rs =>
      .ok { result := some rs, adapter := some .claude,
            requests := batch_messages.map (claude_data model_name generation_config) }
  else
    .ok { result := none, adapter := none, requests := [] }

/-- The function `model_call_wrapper`, with its statically typed argument
shapes (the keyword call made by the caching path of `cached_generate`). -/
def model_call_wrapper (net : RequestData → JVal) (model_name model_url : String)
    (batch_messages : List (List Message)) (generation_config : GenConfig)
    (parallel_model_calls : Bool) : Except String CallResult :=
  if batch_messages.isEmpty then .ok { result := some [], adapter := none, requests := [] }
  else model_call_wrapper_core net model_name model_url batch_messages generation_config
    parallel_model_calls

/-- The function `model_call_wrapper` applied to dynamically typed
arguments, as in the positional call on the cache-less path: the
truthiness test runs first; `model_name in GPT_COSTS` hashes `model_name`
and raises a TypeError when it is a list.  The two remaining decode
failures cannot arise from this module's call sites: passing a batch as
`model_url` would require `model_name` to be a string there, and a string
`batch_messages` is only reached with a string `model_name`, in which case
Python would iterate the URL character by character, which a batch of
message lists cannot represent. -/
def model_call_wrapper_dyn (net : RequestData → JVal)
    (model_name model_url batch_messages : PyObj) (generation_config : GenConfig)
    (parallel_model_calls : Bool) : Except String CallResult :=
  if pyTruthy batch_messages = false then
    .ok { result := some [], adapter := none, requests := [] }
  else
    match model_name with
    | .batch _ => .error "TypeError: unhashable type: list"
    | .str name =>
      match model_url with
      | .batch _ => .error "TypeError: model url is not a string"
      | .str url =>
        match batch_messages with
        | .str _ => .error "TypeError: message batch is a string"
        | .batch b =>
          model_call_wrapper_core net name url b generation_config parallel_model_calls

/-- Cache-miss test for one prompt: miss when the serialized key is
absent, or when the model is cost-tracked and `"choices" not in` the
cached value. -/
def isCacheMiss (cacheDict : Cache) (model_name : String) (p : List Message) :
    Except String Bool :=
  match assocGet cacheDict (jsonify_prompt p) with
  | none => .ok true
  | some v =>
    if (assocGet GPT_COSTS model_name).isSome then
      match pyMem "choices" v with
      | .error e => .error e
      | .ok b => .ok (!b)
    else .ok false

/-- The miss-collection loop building `new_batch_prompts`, in order. -/
def computeMisses (cacheDict : Cache) (model_name : String) :
    List (List Message) → Except String (List (List Message))
  | [] => .ok []
  | p :: rest =>
    match isCacheMiss cacheDict model_name p with
    | .error e => .error e
    | .ok b =>
      match computeMisses cacheDict model_name rest with
      | .error e => .error e
      | .ok tail => .ok (if b then p :: tail else tail)

/-- The cost loop `for token_type in GPT_COSTS[model_name]` for one cached
value `v`: each iteration reads `v["usage"][token_type]` and adds
`usage * price` to the accumulator. -/
def gptCostGo (v : JVal) (acc : ℚ) : List (String × ℚ) → Except String ℚ
  | [] => .ok acc
  | (t, pr) :: rest =>
    match subKey v "usage" with
    | .error e => .error e
    | .ok usage =>
      match subKey usage t with
      | .error e => .error e
      | .ok (.num q) => gptCostGo v (acc + q * pr) rest
      | .ok _ => .error "TypeError: unsupported operand types"

/-- Extraction of the text payload and cost increment from one cached
value, by provider shape: `choices[0].message.content` plus the cost loop
for cost-tracked models, `content[0].text` for Claude models, otherwise
the cached value itself (already plain text). -/
def extract_value (model_name : String) (v : JVal) : Except String (JVal × ℚ) :=
  match assocGet GPT_COSTS model_name with
  | some prices =>
    match subKey v "choices" with
    | .error e => .error e
    | .ok choices =>
      match subIdx choices 0 with
      | .error e => .error e
      | .ok c0 =>
        match subKey c0 "message" with
        | .error e => .error e
        | .ok msg =>
          match subKey msg "content" with
          | .error e => .error e
          | .ok text =>
            match gptCostGo v 0 prices with
            | .error e => .error e
            | .ok dc => .ok (text, dc)
  | none =>
    if CLAUDE_MODELS.contains model_name then
      match subKey v "content" with
      | .error e => .error e
      | .ok content =>
        match subIdx content 0 with
        | .error e => .error e
        | .ok c0 =>
          match subKey c0 "text" with
          | .error e => .error e
          | .ok t => .ok (t, 0)
    else .ok (v, 0)

/-- Extraction for one prompt of the second pass: look the serialized
prompt up in the cache (all prompts are present after the dispatch pass)
and extract text and cost increment from the cached value. -/
def extract_one (model_name : String) (cacheDict : Cache) (p : List Message) :
    Except String (JVal × ℚ) :=
  match assocGet cacheDict (jsonify_prompt p) with
  | none => .error ("KeyError: " ++ jsonify_prompt p)
  | some v => extract_value model_name v

/-- The second pass of `cached_generate`: over all original prompts, in
order, collect extracted texts and accumulate the cost. -/
def extract_pass (model_name : String) (cacheDict : Cache) :
    List (List Message) → Except String (List JVal × ℚ)
  | [] => .ok ([], 0)
  | p :: rest =>
    match extract_one model_name cacheDict p with
    | .error e => .error e
    | .ok (t, dc) =>
      match extract_pass model_name cacheDict rest with
      | .error e => .error e
      | .ok (ts, c) => .ok (t :: ts, dc + c)

/-- The persist loop of `cached_generate`: for each (prompt, response)
pair, set the in-memory cache entry and append one record line to the
cache file. -/
def writeEntries (cacheDict : Cache) (file : List FileLine) :
    List (List Message × JVal) → Cache × List FileLine
  | [] => (cacheDict, file)
  | (p, r) :: rest =>
    let jp := jsonify_prompt p
    writeEntries (dictSet cacheDict jp r) (file ++ [FileLine.record jp r]) rest

/-- The caching path of `cached_generate`, after the reasoning-model
rewrite and with a cache present: compute the miss subset, dispatch it,
persist each new (prompt, response) pair to the in-memory cache and the
cache file, check the response-count assertion (the source persists
before asserting; both are pure here and only a successful call has an
observable outcome), then run the second extraction pass over all
original prompts. -/
def cached_generate_cached (net : RequestData → JVal) (batch_prompts : List (List Message))
    (model_name model_url : String) (cacheDict : Cache) (cache_file : List FileLine)
    (generation_config : GenConfig) (parallel_model_calls : Bool) :
    Except String GenOutcome :=
  match computeMisses cacheDict model_name batch_prompts with
  | .error e => .error e
  | .ok new_batch_prompts =>
    match model_call_wrapper net model_name model_url new_batch_prompts
        generation_config parallel_model_calls with
    | .error e => .error e
    | .ok r =>
      match r.result with
      | none => .error "TypeError: zip argument 2 is not iterable"
      | some batch_responses =>
        if batch_responses.length = new_batch_prompts.length then
          match extract_pass model_name
              (writeEntries cacheDict cache_file (new_batch_prompts.zip batch_responses)).1
              batch_prompts with
          | .error e => .error e
          | .ok tc =>
            .ok { result := .withCost tc.1 tc.2,
                  cache := some (writeEntries cacheDict cache_file
                    (new_batch_prompts.zip batch_responses)).1,
                  cacheFile := (writeEntries cacheDict cache_file
                    (new_batch_prompts.zip batch_responses)).2,
                  batchPrompts := batch_prompts, generationConfig := generation_config,
                  requests := r.requests }
        else .error "AssertionError"

/-- The function `cached_generate`.  The o1 rewrite mutates the caller's
prompt list in place and clears the generation config; with `cache = None`
the wrapper is invoked with dynamically typed arguments in the order
written in the source (`batch_prompts`, `model_name`, `model_url`);
otherwise the miss subset is dispatched, new pairs are persisted, the
response-count assertion runs after persisting, and the second pass
extracts texts and cost from the cache.  The wrapper's own retry
decoration is modelled by `model_call_wrapper_retry`; the wrapper is
deterministic here, so retrying cannot change its outcome. -/
def cached_generate (net : RequestData → JVal) (batch_prompts : List (List Message))
    (model_name model_url : String) (cache : Option Cache) (cache_file : List FileLine)
    (generation_config : GenConfig) (parallel_model_calls : Bool) :
    Except String GenOutcome :=
  let batch_prompts :=
    if strBeginsWith model_name "o1" then batch_prompts.map (fun p => p.map systemToUser)
    else batch_prompts
  let generation_config :=
    if strBeginsWith model_name "o1" then [] else generation_config
  match cache with
  | none =>
    match model_call_wrapper_dyn net (.batch batch_prompts) (.str model_name)
        (.str model_url) generation_config parallel_model_calls with
    | .error e => .error e
    | .ok r =>
      .ok { result := .raw r.result, cache := none, cacheFile := cache_file,
            batchPrompts := batch_prompts, generationConfig := generation_config,
            requests := r.requests }
  | some cacheDict =>
    cached_generate_cached net batch_prompts model_name model_url cacheDict cache_file
      generation_config parallel_model_calls

/-- Success test for an embedded computation (a Python expression that
does not raise). -/
def exceptIsOk {α : Type} : Except String α → Bool
  | .ok _ => true
  | .error _ => false

/-- A user prompt with a single turn, used in concrete instances. -/
def mkPrompt (s : String) : List Message := [{ role := "user", content := s }]

/-- A complete OpenAI-shaped response with the given text and usage. -/
def sampleGptResponse (txt : String) (up uc : ℚ) : JVal :=
  .obj [("choices", .arr [.obj [("message", .obj [("content", .str txt)])]]),
        ("usage", .obj [("prompt_tokens", .num up), ("completion_tokens", .num uc)])]

/-- A deterministic oracle returning a complete OpenAI-shaped response. -/
def okNet : RequestData → JVal := fun _ => sampleGptResponse "ok" 1 1

/-- A concrete request payload for retry instances. -/
def data0 : RequestData := { adapter := .openai, model := "gpt-4o", messages := [], config := [] }

/-- A warm single-entry cache with the given usage numbers, for the cost
instance. -/
def c8cache (up uc : ℚ) : Cache :=
  [(jsonify_prompt (mkPrompt "q"), sampleGptResponse "ans" up uc)]

/-- Five single-turn prompts, for the miss/hit partition instance. -/
def fivePrompts : List (List Message) :=
  [mkPrompt "a", mkPrompt "b", mkPrompt "c", mkPrompt "d", mkPrompt "e"]

/-- A cache holding complete entries for the first three of the five
prompts. -/
def threeCache : Cache :=
  [(jsonify_prompt (mkPrompt "a"), sampleGptResponse "ra" 1 1),
   (jsonify_prompt (mkPrompt "b"), sampleGptResponse "rb" 1 1),
   (jsonify_prompt (mkPrompt "c"), sampleGptResponse "rc" 1 1)]

/-- Helper: a successful embedded computation yields a value. -/
theorem exceptIsOk_ok {α : Type} (e : Except String α) (h : exceptIsOk e = true) :
    ∃ a, e = .ok a := by
  cases e with
  | ok a => exact ⟨a, rfl⟩
  | error e1 => simp [exceptIsOk] at h

/-- Helper: when every attempt fails, the retry loop performs every
remaining attempt and surfaces the outcome of the last one. -/
theorem retryGo_all_fail {α : Type} (call : Nat → Except String α)
    (h : ∀ i, ∃ e, call i = .error e) :
    ∀ (n i : Nat), retryGo call i n = (call (i + n), n + 1) := by
  intro n
  induction n with
  | zero => intro i; simp [retryGo]
  | succ n ih =>
    intro i
    obtain ⟨e, he⟩ := h i
    have harith : i + 1 + n = i + (n + 1) := by omega
    simp [retryGo, he, ih (i + 1), harith]

/-- Claim C1: with `cache = None`, `cached_generate` is specified to skip
caching and dispatch the whole batch through the wrapper with the given
model name, url, config and parallelism flag.  The source instead passes
`(batch_prompts, model_name, model_url)` positionally into the wrapper's
parameters `(model_name, model_url, batch_messages)`; evaluating the code
at a concrete input shows the call raises a TypeError (the prompt batch is
hashed as a dict key) instead of dispatching the batch. -/
theorem cache_none_swapped_call_raises (net : RequestData → JVal) :
    cached_generate net [[⟨"user", "hi"⟩]] "gpt-4o"
      "https://api.openai.com/v1/chat/completions" none [] [] false =
      .error "TypeError: unhashable type: list" := rfl

/-- Claim C10: for an empty batch, `model_call_wrapper` returns the empty
list immediately for every model name, with no adapter selected, no
request dispatched, and for either value of the parallelism flag. -/
theorem empty_batch_immediate_return (net : RequestData → JVal)
    (model_name model_url : String) (generation_config : GenConfig)
    (parallel_model_calls : Bool) :
    model_call_wrapper net model_name model_url [] generation_config parallel_model_calls =
      .ok { result := some [], adapter := none, requests := [] } := rfl

/-- Claim C2: for a non-empty batch, a model name outside the cost table,
without `gemini`/`gemma` as a case-insensitive substring and outside the
Claude allow-list selects no adapter, dispatches no request, and makes
`model_call_wrapper` return `None` silently rather than raising. -/
theorem unknown_model_silent_none (net : RequestData → JVal)
    (model_name model_url : String) (batch : List (List Message)) (cfg : GenConfig)
    (par : Bool) (hne : batch ≠ [])
    (h1 : (assocGet GPT_COSTS model_name).isSome = false)
    (h2 : strContainsSub (strToLower model_name) "gemini" = false)
    (h3 : strContainsSub (strToLower model_name) "gemma" = false)
    (h4 : CLAUDE_MODELS.contains model_name = false) :
    model_call_wrapper net model_name model_url batch cfg par =
      .ok { result := none, adapter := none, requests := [] } := by
  match batch, hne with
  | b :: bs, _ =>
    simp [model_call_wrapper, model_call_wrapper_core, h1, h2, h3]
    intro hmem
    exact absurd hmem (by simpa using h4)

/-- Witness for C2 at a concrete unknown model name and one-prompt batch. -/
theorem unknown_model_silent_none_witness :
    (([[(⟨"user", "x"⟩ : Message)]] : List (List Message)) ≠ []) ∧
      model_call_wrapper (fun _ => JVal.null) "mystery-model" "u" [[⟨"user", "x"⟩]] [] false =
        .ok { result := none, adapter := none, requests := [] } :=
  ⟨by simp,
   unknown_model_silent_none (fun _ => JVal.null) "mystery-model" "u" [[⟨"user", "x"⟩]] []
     false (by simp) rfl rfl rfl rfl⟩

/-- Claim C7: a network-calling request function whose underlying call
always fails is attempted exactly 10 times, after which the last failure
surfaces; the top-level dispatch wrapper's policy allows at most 10
attempts with a fixed 20-unit wait, and the request functions use random
exponential backoff with multiplier 1 capped at 60. -/
theorem retry_attempt_bound :
    (∀ (net : Nat → RequestData → JVal) (data : RequestData),
        (∀ i, ∃ e, openai_request (net i) data = .error e) →
        (openai_request_retried net data).2 = 10 ∧
          (openai_request_retried net data).1 = openai_request (net 9) data) ∧
    (∀ (net : Nat → RequestData → JVal) (data : RequestData),
        (∀ i, ∃ e, claude_request (net i) data = .error e) →
        (claude_request_retried net data).2 = 10 ∧
          (claude_request_retried net data).1 = claude_request (net 9) data) ∧
    model_call_wrapper_retry = { maxAttempts := 10, wait := .fixed 20 } ∧
    openai_request_retry = { maxAttempts := 10, wait := .randomExponential 1 60 } ∧
    claude_request_retry = { maxAttempts := 10, wait := .randomExponential 1 60 } := by
  refine ⟨?_, ?_, rfl, rfl, rfl⟩
  · intro net data h
    have hgo := retryGo_all_fail (fun i => openai_request (net i) data) h 9 0
    constructor
    · show (retryGo (fun i => openai_request (net i) data) 0 (10 - 1)).2 = 10
      rw [show 10 - 1 = 9 from rfl, hgo]
    · show (retryGo (fun i => openai_request (net i) data) 0 (10 - 1)).1 = _
      rw [show 10 - 1 = 9 from rfl, hgo]
  · intro net data h
    have hgo := retryGo_all_fail (fun i => claude_request (net i) data) h 9 0
    constructor
    · show (retryGo (fun i => claude_request (net i) data) 0 (10 - 1)).2 = 10
      rw [show 10 - 1 = 9 from rfl, hgo]
    · show (retryGo (fun i => claude_request (net i) data) 0 (10 - 1)).1 = _
      rw [show 10 - 1 = 9 from rfl, hgo]

/-- Witness for C7: an oracle whose responses never contain `choices`
makes every attempt fail, and the retried request performs 10 attempts. -/
theorem retry_attempt_bound_witness :
    (∃ e, openai_request (fun _ => JVal.obj []) data0 = .error e) ∧
      (openai_request_retried (fun _ _ => JVal.obj []) data0).2 = 10 :=
  ⟨⟨"AssertionError", rfl⟩,
   (retry_attempt_bound.1 (fun _ _ => JVal.obj []) data0
     (fun _ => ⟨"AssertionError", rfl⟩)).1⟩

/-- Claim C3: a prompt is a cache miss iff its serialized key is absent,
or the model is cost-tracked and the cached value lacks a `choices` field;
the dispatch set is exactly the miss-filtered batch; and on the concrete
5-prompt batch with 3 complete cached entries exactly 2 requests reach the
network layer. -/
theorem cache_miss_partition :
    (∀ (cacheDict : Cache) (model : String) (p : List Message),
        isCacheMiss cacheDict model p = .ok true ↔
          (assocGet cacheDict (jsonify_prompt p) = none ∨
            ((assocGet GPT_COSTS model).isSome = true ∧
              ∃ v, assocGet cacheDict (jsonify_prompt p) = some v ∧
                pyMem "choices" v = .ok false))) ∧
    (∀ (cacheDict : Cache) (model : String) (ps : List (List Message))
        (f : List Message → Bool),
        (∀ p ∈ ps, isCacheMiss cacheDict model p = .ok (f p)) →
        computeMisses cacheDict model ps = .ok (ps.filter f)) ∧
    (cached_generate okNet fivePrompts "gpt-4o" "u" (some threeCache) [] [] false).map
      (fun o => o.requests.length) = .ok 2 := by
  refine ⟨?_, ?_, rfl⟩
  · intro cacheDict model p
    unfold isCacheMiss
    cases hv : assocGet cacheDict (jsonify_prompt p) with
    | none => simp
    | some v =>
      by_cases ht : (assocGet GPT_COSTS model).isSome = true
      · cases hm : pyMem "choices" v with
        | error e => simp [ht, hm]
        | ok b => cases b <;> simp [ht, hm]
      · simp [ht]
  · intro cacheDict model ps f
    induction ps with
    | nil => intro _; rfl
    | cons p rest ih =>
      intro h
      have hp := h p (by simp)
      have ht := ih (fun q hq => h q (by simp [hq]))
      cases hfp : f p <;> simp [computeMisses, hp, ht, hfp, List.filter_cons]

/-- Witness for C3: in an empty cache every prompt is classified a miss. -/
theorem cache_miss_partition_witness :
    isCacheMiss [] "gpt-4o" (mkPrompt "z") = .ok true :=
  (cache_miss_partition.1 [] "gpt-4o" (mkPrompt "z")).mpr (Or.inl rfl)

/-- Helper: replaying more lines continues from the mapping the earlier
lines produced. -/
theorem loadLines_append (l1 l2 : List FileLine) :
    ∀ (acc m : Cache), loadLines acc l1 = .ok m → loadLines acc (l1 ++ l2) = loadLines m l2 := by
  induction l1 with
  | nil =>
    intro acc m h
    simp [loadLines] at h
    subst h
    rfl
  | cons x rest ih =>
    intro acc m h
    cases x with
    | record p c =>
      simp only [loadLines] at h
      simpa only [List.cons_append, loadLines] using ih (dictSet acc p c) m h
    | malformed => simp [loadLines] at h

/-- Helper: assignment makes the assigned key map to the assigned value. -/
theorem assocGet_dictSet_self {α : Type} (m : List (String × α)) (k : String) (v : α) :
    assocGet (dictSet m k v) k = some v := by
  induction m with
  | nil => simp [dictSet, assocGet]
  | cons kv rest ih =>
    by_cases h : kv.1 = k
    · simp [dictSet, assocGet, h]
    · simp [dictSet, assocGet, h, ih]

/-- Helper: replaying record lines folds the assignments over the mapping. -/
theorem loadLines_records (entries : List (String × JVal)) :
    ∀ m : Cache,
      loadLines m (entries.map (fun e => FileLine.record e.1 e.2)) =
        .ok (entries.foldl (fun acc e => dictSet acc e.1 e.2) m) := by
  induction entries with
  | nil => intro m; rfl
  | cons e rest ih => intro m; simpa only [List.map_cons, loadLines, List.foldl_cons] using ih _

/-- Helper: a malformed line anywhere makes replay fail with a decode
error, regardless of the mapping accumulated so far. -/
theorem loadLines_malformed (lines : List FileLine) :
    FileLine.malformed ∈ lines → ∀ acc : Cache, ∃ e, loadLines acc lines = .error e := by
  induction lines with
  | nil => intro h; cases h
  | cons x rest ih =>
    intro hmem acc
    cases x with
    | malformed => exact ⟨"JSONDecodeError", rfl⟩
    | record p c =>
      have h2 : FileLine.malformed ∈ rest := by
        rcases List.mem_cons.mp hmem with h | h
        · cases h
        · exact h
      exact ih h2 (dictSet acc p c)

/-- Helper: the persist loop folds assignments into the cache and appends
exactly one record line per pair. -/
theorem writeEntries_spec (prs : List (List Message × JVal)) :
    ∀ (c : Cache) (f : List FileLine),
      writeEntries c f prs =
        ((prs.map (fun pr => (jsonify_prompt pr.1, pr.2))).foldl
            (fun acc e => dictSet acc e.1 e.2) c,
         f ++ prs.map (fun pr => FileLine.record (jsonify_prompt pr.1) pr.2)) := by
  induction prs with
  | nil => intro c f; simp [writeEntries]
  | cons pr rest ih =>
    intro c f
    simp [writeEntries, ih]

/-- Helper: the cache file produced by the persist loop extends the input
file with record lines built from key/value entries. -/
theorem writeEntries_file_records (c : Cache) (file : List FileLine)
    (prs : List (List Message × JVal)) :
    ∃ entries : List (String × JVal),
      (writeEntries c file prs).2 = file ++ entries.map (fun e => FileLine.record e.1 e.2) := by
  refine ⟨prs.map (fun pr => (jsonify_prompt pr.1, pr.2)), ?_⟩
  rw [writeEntries_spec]
  simp [List.map_map, Function.comp]

/-- Helper: a successful caching-path call appends record lines only:
its final cache file is the input file followed by one record per newly
persisted (serialized prompt, response) pair. -/
theorem cached_generate_cached_appends (net : RequestData → JVal)
    (bp : List (List Message)) (model url : String) (c : Cache) (file : List FileLine)
    (cfg : GenConfig) (par : Bool) (out : GenOutcome)
    (hok : cached_generate_cached net bp model url c file cfg par = .ok out) :
    ∃ entries : List (String × JVal),
      out.cacheFile = file ++ entries.map (fun e => FileLine.record e.1 e.2) := by
  unfold cached_generate_cached at hok
  split at hok
  · exact absurd hok (by simp)
  · split at hok
    · exact absurd hok (by simp)
    · split at hok
      · exact absurd hok (by simp)
      · split at hok
        · split at hok
          · exact absurd hok (by simp)
          · injection hok with hout
            subst hout
            exact writeEntries_file_records c file _
        · exact absurd hok (by simp)

/-- Claim C5: records appended to the cache file are recovered by a
subsequent load keyed by the exact serialized prompt, last write wins for
a duplicate key, a missing file yields an empty mapping, a malformed line
fails the load with a decode error, and every line `cached_generate`
appends is a record whose replay folds the appended assignments over the
previously loaded mapping. -/
theorem cache_file_round_trip :
    (∀ (file : List FileLine) (m : Cache) (k : String) (v : JVal),
        load_cache_file (some file) = .ok m →
        load_cache_file (some (file ++ [FileLine.record k v])) = .ok (dictSet m k v) ∧
          assocGet (dictSet m k v) k = some v) ∧
    load_cache_file none = .ok [] ∧
    (∀ file : List FileLine,
        FileLine.malformed ∈ file → ∃ e, load_cache_file (some file) = .error e) ∧
    (∀ (net : RequestData → JVal) (batch : List (List Message)) (model url : String)
        (c : Cache) (file : List FileLine) (cfg : GenConfig) (par : Bool)
        (out : GenOutcome) (m0 : Cache),
        cached_generate net batch model url (some c) file cfg par = .ok out →
        load_cache_file (some file) = .ok m0 →
        ∃ entries : List (String × JVal),
          out.cacheFile = file ++ entries.map (fun e => FileLine.record e.1 e.2) ∧
            load_cache_file (some out.cacheFile) =
              .ok (entries.foldl (fun acc e => dictSet acc e.1 e.2) m0)) := by
  refine ⟨?_, rfl, ?_, ?_⟩
  · intro file m k v h
    refine ⟨?_, assocGet_dictSet_self m k v⟩
    show loadLines [] (file ++ [FileLine.record k v]) = .ok (dictSet m k v)
    rw [loadLines_append file [FileLine.record k v] [] m h]
    rfl
  · intro file hmem
    exact loadLines_malformed file hmem []
  · intro net batch model url c file cfg par out m0 hok h0
    have hcached : ∃ (bp' : List (List Message)) (cfg' : GenConfig),
        cached_generate_cached net bp' model url c file cfg' par = .ok out := by
      by_cases ho : strBeginsWith model "o1" = true
      · simp [cached_generate, ho] at hok
        exact ⟨_, _, hok⟩
      · simp [cached_generate, ho] at hok
        exact ⟨_, _, hok⟩
    obtain ⟨bp', cfg', hok2⟩ := hcached
    obtain ⟨entries, hfile⟩ :=
      cached_generate_cached_appends net bp' model url c file cfg' par out hok2
    refine ⟨entries, hfile, ?_⟩
    rw [hfile]
    show loadLines [] (file ++ _) = _
    rw [loadLines_append file _ [] m0 h0]
    exact loadLines_records entries m0

/-- Witness for C5 at a one-record file, the missing file, and a file with
one malformed line. -/
theorem cache_file_round_trip_witness :
    load_cache_file (some ([] ++ [FileLine.record "k" JVal.null])) =
        .ok (dictSet [] "k" JVal.null) ∧
      assocGet (dictSet ([] : Cache) "k" JVal.null) "k" = some JVal.null ∧
      load_cache_file none = .ok [] ∧
      ∃ e, load_cache_file (some [FileLine.malformed]) = .error e :=
  ⟨(cache_file_round_trip.1 [] [] "k" JVal.null rfl).1,
   (cache_file_round_trip.1 [] [] "k" JVal.null rfl).2,
   cache_file_round_trip.2.1,
   cache_file_round_trip.2.2.1 [FileLine.malformed] (by simp)⟩

/-- Helper: an extraction from one cached value of a non-cost-tracked
model contributes zero cost. -/
theorem extract_value_untracked_cost (model : String) (v : JVal) (r : JVal × ℚ)
    (hn : assocGet GPT_COSTS model = none) (h : extract_value model v = .ok r) :
    r.2 = 0 := by
  unfold extract_value at h
  rw [hn] at h
  replace h : (if CLAUDE_MODELS.contains model = true then
      ((match subKey v "content" with
        | Except.error e => Except.error e
        | Except.ok content =>
          match subIdx content 0 with
          | Except.error e => Except.error e
          | Except.ok c0 =>
            match subKey c0 "text" with
            | Except.error e => Except.error e
            | Except.ok t => Except.ok (t, 0)) : Except String (JVal × ℚ))
    else (Except.ok (v, 0) : Except String (JVal × ℚ))) = .ok r := h
  by_cases hc : CLAUDE_MODELS.contains model = true
  · rw [if_pos hc] at h
    cases h1 : subKey v "content" with
    | error e => rw [h1] at h; exact absurd h (by simp)
    | ok content =>
      rw [h1] at h
      replace h : ((match subIdx content 0 with
        | Except.error e => Except.error e
        | Except.ok c0 =>
          match subKey c0 "text" with
          | Except.error e => Except.error e
          | Except.ok t => Except.ok (t, 0)) : Except String (JVal × ℚ)) = .ok r := h
      cases h2 : subIdx content 0 with
      | error e => rw [h2] at h; exact absurd h (by simp)
      | ok c0 =>
        rw [h2] at h
        replace h : ((match subKey c0 "text" with
          | Except.error e => Except.error e
          | Except.ok t => Except.ok (t, 0)) : Except String (JVal × ℚ)) = .ok r := h
        cases h3 : subKey c0 "text" with
        | error e => rw [h3] at h; exact absurd h (by simp)
        | ok t =>
          rw [h3] at h
          replace h : (Except.ok (t, (0 : ℚ)) : Except String (JVal × ℚ)) = .ok r := h
          injection h with h4
          rw [← h4]
  · rw [if_neg hc] at h
    injection h with h4
    rw [← h4]

/-- Helper: extraction of one prompt of a non-cost-tracked model
contributes zero cost. -/
theorem extract_one_untracked_cost (model : String) (c : Cache) (p : List Message)
    (t : JVal) (dc : ℚ) (hn : assocGet GPT_COSTS model = none)
    (h : extract_one model c p = .ok (t, dc)) : dc = 0 := by
  unfold extract_one at h
  split at h
  · exact absurd h (by simp)
  · exact extract_value_untracked_cost model _ (t, dc) hn h

/-- Helper: the whole second pass of a non-cost-tracked model reports
zero total cost. -/
theorem extract_pass_untracked (model : String) (c : Cache)
    (hn : assocGet GPT_COSTS model = none) :
    ∀ (ps : List (List Message)) (texts : List JVal) (cost : ℚ),
      extract_pass model c ps = .ok (texts, cost) → cost = 0 := by
  intro ps
  induction ps with
  | nil =>
    intro texts cost h
    unfold extract_pass at h
    injection h with h2
    have := congrArg Prod.snd h2
    simpa using this.symm
  | cons p rest ih =>
    intro texts cost h
    unfold extract_pass at h
    cases heq1 : extract_one model c p with
    | error e => rw [heq1] at h; exact absurd h (by simp)
    | ok tdc =>
      obtain ⟨t, dc⟩ := tdc
      rw [heq1] at h
      replace h : ((match extract_pass model c rest with
        | Except.error e => Except.error e
        | Except.ok (ts, cst) => Except.ok (t :: ts, dc + cst)) :
          Except String (List JVal × ℚ)) = .ok (texts, cost) := h
      cases heq2 : extract_pass model c rest with
      | error e => rw [heq2] at h; exact absurd h (by simp)
      | ok tscst =>
        obtain ⟨ts, cst⟩ := tscst
        rw [heq2] at h
        replace h : (Except.ok (t :: ts, dc + cst) : Except String (List JVal × ℚ)) =
          .ok (texts, cost) := h
        injection h with h2
        have hc : cost = dc + cst := (congrArg Prod.snd h2).symm
        have hdc : dc = 0 := extract_one_untracked_cost model c p t dc hn heq1
        have hcst : cst = 0 := ih ts cst heq2
        rw [hc, hdc, hcst, add_zero]

/-- Claim C8: for a cost-tracked model the returned cost for one prompt
with usage numbers `up`/`uc` is exactly `up * price_prompt +
uc * price_completion` (here for `gpt-4o`); in general the second pass
returns the per-prompt texts and the sum of the per-prompt costs; and a
non-cost-tracked model always reports total cost 0. -/
theorem gpt_cost_computation :
    (∀ (net : RequestData → JVal) (up uc : ℚ),
        ∃ out, cached_generate net [mkPrompt "q"] "gpt-4o" "u" (some (c8cache up uc)) [] []
            false = .ok out ∧
          out.result = .withCost [.str "ans"] (up * (5 / 1000000) + uc * (15 / 1000000))) ∧
    (∀ (model : String) (cacheDict : Cache) (ps : List (List Message))
        (f : List Message → JVal) (g : List Message → ℚ),
        (∀ p ∈ ps, extract_one model cacheDict p = .ok (f p, g p)) →
        extract_pass model cacheDict ps = .ok (ps.map f, (ps.map g).sum)) ∧
    (∀ (model : String) (cacheDict : Cache) (ps : List (List Message))
        (texts : List JVal) (cost : ℚ),
        assocGet GPT_COSTS model = none →
        extract_pass model cacheDict ps = .ok (texts, cost) → cost = 0) := by
  refine ⟨?_, ?_, ?_⟩
  · intro net up uc
    refine ⟨_, rfl, ?_⟩
    show GenResult.withCost _ _ = _
    congr 1
    ring
  · intro model cacheDict ps f g
    induction ps with
    | nil => intro _; rfl
    | cons p rest ih =>
      intro h
      have hp := h p (by simp)
      have ht := ih (fun q hq => h q (by simp [hq]))
      simp [extract_pass, hp, ht]
  · intro model cacheDict ps texts cost hn h
    exact extract_pass_untracked model cacheDict hn ps texts cost h

/-- Witness for C8 at the `usage = (prompt_tokens: 100, completion_tokens:
50)` instance of the spec, together with a concrete non-tracked model. -/
theorem gpt_cost_computation_witness :
    (∃ out, cached_generate okNet [mkPrompt "q"] "gpt-4o" "u" (some (c8cache 100 50)) [] []
        false = .ok out ∧
        out.result = .withCost [.str "ans"]
          ((100 : ℚ) * (5 / 1000000) + (50 : ℚ) * (15 / 1000000))) ∧
      assocGet GPT_COSTS "mystery-model" = none ∧ (0 : ℚ) = 0 :=
  ⟨gpt_cost_computation.1 okNet 100 50, rfl,
   gpt_cost_computation.2.2 "mystery-model" [] [] [] 0 rfl rfl⟩

/-- Helper: every request of a successful dispatch that went through the
OpenAI-compatible adapter carries exactly the generation config the
wrapper core was called with. -/
theorem wrapper_core_openai_config (net : RequestData → JVal) (mn mu : String)
    (b : List (List Message)) (cfg : GenConfig) (par : Bool) (res : CallResult)
    (h : model_call_wrapper_core net mn mu b cfg par = .ok res) :
    ∀ r ∈ res.requests, r.adapter = Adapter.openai → r.config = cfg := by
  unfold model_call_wrapper_core at h
  split at h
  · split at h
    · exact absurd h (by simp)
    · injection h with h2
      subst h2
      intro r hr _
      rcases List.mem_map.mp hr with ⟨ms, _, rfl⟩
      rfl
  · split at h
    · split at h
      · exact absurd h (by simp)
      · injection h with h2
        subst h2
        intro r hr hra
        rcases List.mem_map.mp hr with ⟨ms, _, rfl⟩
        exact absurd hra (by simp [gemini_data])
    · split at h
      · split at h
        · exact absurd h (by simp)
        · injection h with h2
          subst h2
          intro r hr hra
          rcases List.mem_map.mp hr with ⟨ms, _, rfl⟩
          exact absurd hra (by simp [gemma_data])
      · split at h
        · split at h
          · exact absurd h (by simp)
          · injection h with h2
            subst h2
            intro r hr hra
            rcases List.mem_map.mp hr with ⟨ms, _, rfl⟩
            exact absurd hra (by simp [claude_data])
        · injection h with h2
          subst h2
          intro r hr
          simp at hr

/-- Helper: the same property through `model_call_wrapper`. -/
theorem wrapper_openai_config (net : RequestData → JVal) (mn mu : String)
    (b : List (List Message)) (cfg : GenConfig) (par : Bool) (res : CallResult)
    (h : model_call_wrapper net mn mu b cfg par = .ok res) :
    ∀ r ∈ res.requests, r.adapter = Adapter.openai → r.config = cfg := by
  unfold model_call_wrapper at h
  split at h
  · injection h with h2
    subst h2
    intro r hr
    simp at hr
  · exact wrapper_core_openai_config net mn mu b cfg par res h

/-- Helper: the same property through the dynamically typed call. -/
theorem wrapper_dyn_openai_config (net : RequestData → JVal) (a b c : PyObj)
    (cfg : GenConfig) (par : Bool) (res : CallResult)
    (h : model_call_wrapper_dyn net a b c cfg par = .ok res) :
    ∀ r ∈ res.requests, r.adapter = Adapter.openai → r.config = cfg := by
  unfold model_call_wrapper_dyn at h
  split at h
  · injection h with h2
    subst h2
    intro r hr
    simp at hr
  · split at h
    · exact absurd h (by simp)
    · split at h
      · exact absurd h (by simp)
      · split at h
        · exact absurd h (by simp)
        · exact wrapper_core_openai_config net _ _ _ cfg par res h

/-- Helper: a successful caching-path call reports the prompt list and
generation config it was invoked with, and its OpenAI-adapter requests
carry that config. -/
theorem cached_generate_cached_fields (net : RequestData → JVal)
    (bp : List (List Message)) (model url : String) (c : Cache) (file : List FileLine)
    (cfg : GenConfig) (par : Bool) (out : GenOutcome)
    (hok : cached_generate_cached net bp model url c file cfg par = .ok out) :
    out.batchPrompts = bp ∧ out.generationConfig = cfg ∧
      ∀ r ∈ out.requests, r.adapter = Adapter.openai → r.config = cfg := by
  unfold cached_generate_cached at hok
  split at hok
  · exact absurd hok (by simp)
  · split at hok
    · exact absurd hok (by simp)
    · rename_i r hr
      split at hok
      · exact absurd hok (by simp)
      · split at hok
        · split at hok
          · exact absurd hok (by simp)
          · injection hok with h2
            subst h2
            exact ⟨rfl, rfl, wrapper_openai_config net model url _ cfg par r hr⟩
        · exact absurd hok (by simp)

/-- Claim C9: when the model name begins with `o1`, a successful
`cached_generate` call leaves the caller's prompt list with every `system`
turn rewritten to `user`, the generation config it dispatches with is the
empty one, and every OpenAI-adapter request it sends carries that empty
config. -/
theorem o1_reasoning_normalization (net : RequestData → JVal)
    (batch : List (List Message)) (model url : String) (cache : Option Cache)
    (file : List FileLine) (cfg : GenConfig) (par : Bool) (out : GenOutcome)
    (hm : strBeginsWith model "o1" = true)
    (hok : cached_generate net batch model url cache file cfg par = .ok out) :
    out.batchPrompts = batch.map (fun p => p.map systemToUser) ∧
      out.generationConfig = [] ∧
      ∀ r ∈ out.requests, r.adapter = Adapter.openai → r.config = [] := by
  cases cache with
  | none =>
    simp only [cached_generate, hm, eq_self_iff_true, if_true] at hok
    split at hok
    · exact absurd hok (by simp)
    · rename_i r hr
      injection hok with h2
      subst h2
      exact ⟨rfl, rfl, wrapper_dyn_openai_config net _ _ _ [] par r hr⟩
  | some cacheDict =>
    simp only [cached_generate, hm, eq_self_iff_true, if_true] at hok
    exact cached_generate_cached_fields net _ model url cacheDict file [] par out hok

/-- Witness for C9 at the model name `o1` with one system-turn prompt. -/
theorem o1_reasoning_normalization_witness :
    strBeginsWith "o1" "o1" = true ∧
      ∃ out, cached_generate okNet [[⟨"system", "s"⟩]] "o1" "" none []
          [("x", JVal.num 1)] false = .ok out ∧
        out.batchPrompts = [[⟨"user", "s"⟩]] ∧ out.generationConfig = [] := by
  refine ⟨rfl, ?_⟩
  refine ⟨_, rfl, ?_, ?_⟩
  · exact (o1_reasoning_normalization okNet [[⟨"system", "s"⟩]] "o1" "" none []
      [("x", JVal.num 1)] false _ rfl rfl).1
  · exact (o1_reasoning_normalization okNet [[⟨"system", "s"⟩]] "o1" "" none []
      [("x", JVal.num 1)] false _ rfl rfl).2.1

/-- Helper: when extraction succeeds for a cost-tracked model, the cached
value has a `choices` key, so the membership test used by miss detection
answers true. -/
theorem extract_value_tracked_choices (model : String) (v : JVal)
    (prices : List (String × ℚ)) (hp : assocGet GPT_COSTS model = some prices)
    (hok : exceptIsOk (extract_value model v) = true) :
    pyMem "choices" v = .ok true := by
  unfold extract_value at hok
  rw [hp] at hok
  cases hc : subKey v "choices" with
  | error e =>
    rw [hc] at hok
    exact absurd hok (by simp [exceptIsOk])
  | ok choices =>
    cases v with
    | obj fields =>
      simp only [subKey] at hc
      cases hf : assocGet fields "choices" with
      | none => rw [hf] at hc; exact absurd hc (by simp)
      | some x => simp [pyMem, hf]
    | null => exact absurd hc (by simp [subKey])
    | num q => exact absurd hc (by simp [subKey])
    | str s => exact absurd hc (by simp [subKey])
    | arr xs => exact absurd hc (by simp [subKey])

/-- Helper: a batch whose prompts all have complete cache entries
produces an empty miss set. -/
theorem computeMisses_warm (c : Cache) (model : String) :
    ∀ ps : List (List Message),
      (∀ p ∈ ps, ∃ v, assocGet c (jsonify_prompt p) = some v ∧
          exceptIsOk (extract_value model v) = true) →
      computeMisses c model ps = .ok [] := by
  intro ps
  induction ps with
  | nil => intro _; rfl
  | cons p rest ih =>
    intro h
    obtain ⟨v, hv, hev⟩ := h p (by simp)
    have hmiss : isCacheMiss c model p = .ok false := by
      unfold isCacheMiss
      rw [hv]
      cases hp : assocGet GPT_COSTS model with
      | none => simp [hp]
      | some prices =>
        have hch := extract_value_tracked_choices model v prices hp hev
        simp [hp, hch]
    have ht := ih (fun q hq => h q (by simp [hq]))
    simp [computeMisses, hmiss, ht]

/-- Helper: the extraction pass succeeds on a batch whose prompts all
have complete cache entries. -/
theorem extract_pass_warm (model : String) (c : Cache) :
    ∀ ps : List (List Message),
      (∀ p ∈ ps, ∃ v, assocGet c (jsonify_prompt p) = some v ∧
          exceptIsOk (extract_value model v) = true) →
      ∃ tc, extract_pass model c ps = .ok tc := by
  intro ps
  induction ps with
  | nil => intro _; exact ⟨([], 0), rfl⟩
  | cons p rest ih =>
    intro h
    obtain ⟨v, hv, hev⟩ := h p (by simp)
    obtain ⟨pr, hpr⟩ := exceptIsOk_ok _ hev
    obtain ⟨t, dc⟩ := pr
    obtain ⟨⟨ts, cst⟩, hrest⟩ := ih (fun q hq => h q (by simp [hq]))
    refine ⟨(t :: ts, dc + cst), ?_⟩
    simp [extract_pass, extract_one, hv, hpr, hrest]

/-- Helper: the system-to-user conversion is idempotent. -/
theorem systemToUser_idem (m : Message) : systemToUser (systemToUser m) = systemToUser m := by
  unfold systemToUser
  by_cases h : m.role = "system"
  · simp [h]
  · simp [h]

/-- Helper: rewriting roles in one prompt is idempotent. -/
theorem mapSystemToUser_idem (p : List Message) :
    (p.map systemToUser).map systemToUser = p.map systemToUser := by
  rw [List.map_map]
  simp [Function.comp, systemToUser_idem]

/-- Helper: rewriting roles in a whole batch is idempotent. -/
theorem batchSystemToUser_idem (b : List (List Message)) :
    (b.map (fun p => p.map systemToUser)).map (fun p => p.map systemToUser) =
      b.map (fun p => p.map systemToUser) := by
  rw [List.map_map]
  exact List.map_congr_left (fun p _ => mapSystemToUser_idem p)

/-- Helper: on a warm cache the caching path dispatches nothing, writes
nothing, leaves the cache untouched, and returns the extracted texts. -/
theorem cached_generate_cached_warm (net : RequestData → JVal)
    (bp : List (List Message)) (model url : String) (c : Cache) (file : List FileLine)
    (cfg : GenConfig) (par : Bool)
    (h : ∀ p ∈ bp, ∃ v, assocGet c (jsonify_prompt p) = some v ∧
        exceptIsOk (extract_value model v) = true) :
    ∃ ts cst, cached_generate_cached net bp model url c file cfg par =
      .ok { result := .withCost ts cst, cache := some c, cacheFile := file,
            batchPrompts := bp, generationConfig := cfg, requests := [] } := by
  obtain ⟨⟨ts, cst⟩, hex⟩ := extract_pass_warm model c bp h
  refine ⟨ts, cst, ?_⟩
  unfold cached_generate_cached
  simp [computeMisses_warm c model bp h, model_call_wrapper, writeEntries, hex]

/-- Claim C4: with every prompt of the (reasoning-normalized) batch
already cached with a complete entry, `cached_generate` dispatches zero
requests, leaves the cache and the cache file unchanged, and calling it a
second time on the resulting state yields the identical outcome (same
extracted texts, same cost, again zero requests). -/
theorem warm_cache_idempotent (net : RequestData → JVal) (batch : List (List Message))
    (model url : String) (c : Cache) (file : List FileLine) (cfg : GenConfig) (par : Bool)
    (h : ∀ p ∈ (if strBeginsWith model "o1" then batch.map (fun p => p.map systemToUser)
        else batch),
        ∃ v, assocGet c (jsonify_prompt p) = some v ∧
          exceptIsOk (extract_value model v) = true) :
    ∃ out, cached_generate net batch model url (some c) file cfg par = .ok out ∧
      out.requests = [] ∧ out.cache = some c ∧ out.cacheFile = file ∧
      cached_generate net out.batchPrompts model url out.cache out.cacheFile cfg par =
        .ok out := by
  by_cases ho : strBeginsWith model "o1" = true
  · rw [if_pos ho] at h
    obtain ⟨ts, cst, hcc⟩ := cached_generate_cached_warm net
      (batch.map (fun p => p.map systemToUser)) model url c file [] par h
    refine ⟨{ result := .withCost ts cst, cache := some c, cacheFile := file,
              batchPrompts := batch.map (fun p => p.map systemToUser),
              generationConfig := [], requests := [] }, ?_, rfl, rfl, rfl, ?_⟩
    · show cached_generate net batch model url (some c) file cfg par = _
      simp only [cached_generate, ho, eq_self_iff_true, if_true]
      exact hcc
    · show cached_generate net (batch.map (fun p => p.map systemToUser)) model url
        (some c) file cfg par = _
      simp only [cached_generate, ho, eq_self_iff_true, if_true]
      rw [batchSystemToUser_idem]
      exact hcc
  · rw [if_neg ho] at h
    obtain ⟨ts, cst, hcc⟩ := cached_generate_cached_warm net batch model url c file cfg
      par h
    refine ⟨{ result := .withCost ts cst, cache := some c, cacheFile := file,
              batchPrompts := batch, generationConfig := cfg, requests := [] },
      ?_, rfl, rfl, rfl, ?_⟩
    · show cached_generate net batch model url (some c) file cfg par = _
      simp only [cached_generate, ho, if_false]
      exact hcc
    · show cached_generate net batch model url (some c) file cfg par = _
      simp only [cached_generate, ho, if_false]
      exact hcc

/-- Witness for C4: a one-prompt batch for an untracked model with its
entry already cached as plain text. -/
theorem warm_cache_idempotent_witness :
    ∃ out, cached_generate okNet [mkPrompt "w"] "local-model" "u"
        (some [(jsonify_prompt (mkPrompt "w"), JVal.str "resp")]) [] [] false = .ok out ∧
      out.requests = [] ∧
      out.cache = some [(jsonify_prompt (mkPrompt "w"), JVal.str "resp")] ∧
      out.cacheFile = [] ∧
      cached_generate okNet out.batchPrompts "local-model" "u" out.cache out.cacheFile []
        false = .ok out := by
  apply warm_cache_idempotent
  intro p hp
  have hp2 : p ∈ [mkPrompt "w"] := hp
  simp only [List.mem_singleton] at hp2
  subst hp2
  exact ⟨JVal.str "resp", rfl, rfl⟩

/-- Helper: replacing the final element of a role-alternating list by one
with the same role preserves alternation. -/
theorem chainNe_replaceLast (l : List Message) (x y : Message) (hxy : x.role = y.role)
    (h : List.Chain' roleNe (l ++ [x])) : List.Chain' roleNe (l ++ [y]) := by
  rw [List.chain'_append] at h ⊢
  refine ⟨h.1, List.chain'_singleton y, ?_⟩
  intro a ha b hb
  simp only [List.head?_cons, Option.mem_def, Option.some.injEq] at hb
  subst hb
  have hax := h.2.2 a ha x (by simp)
  unfold roleNe at hax ⊢
  rw [← hxy]
  exact hax

/-- Helper: the merge loop preserves role alternation of the processed
prefix. -/
theorem mergeGo_chain (rest : List Message) :
    ∀ (cur : Message) (done : List Message),
      List.Chain' roleNe (done.reverse ++ [cur]) →
      List.Chain' roleNe (mergeGo cur done rest) := by
  induction rest with
  | nil =>
    intro cur done h
    simpa [mergeGo] using h
  | cons m rest ih =>
    intro cur done h
    unfold mergeGo
    by_cases hr : (systemToUser m).role = cur.role
    · rw [if_pos hr]
      exact ih _ done (chainNe_replaceLast done.reverse cur _ rfl h)
    · rw [if_neg hr]
      apply ih
      show List.Chain' roleNe ((cur :: done).reverse ++ [systemToUser m])
      rw [List.reverse_cons]
      rw [List.chain'_append]
      refine ⟨h, List.chain'_singleton _, ?_⟩
      intro a ha b hb
      simp only [List.head?_cons, Option.mem_def, Option.some.injEq] at hb
      subst hb
      rw [List.getLast?_concat, Option.mem_def, Option.some.injEq] at ha
      subst ha
      exact fun he => hr he.symm

/-- Helper: the first pass always yields a role-alternating sequence. -/
theorem mergeMessages_chain (msgs : List Message) :
    List.Chain' roleNe (mergeMessages msgs) := by
  cases msgs with
  | nil => simp [mergeMessages]
  | cons m rest =>
    apply mergeGo_chain
    simp

/-- Helper: converting an allowed input role yields `user` or `assistant`. -/
theorem systemToUser_roleOK (m : Message)
    (h : m.role = "system" ∨ m.role = "user" ∨ m.role = "assistant") :
    RoleOK (systemToUser m) := by
  unfold systemToUser RoleOK
  rcases h with h | h | h
  · simp [h]
  · simp [h]
  · simp [h]

/-- Helper: the merge loop emits only `user`/`assistant` roles when its
inputs are drawn from the allowed roles. -/
theorem mergeGo_roles (rest : List Message) :
    ∀ (cur : Message) (done : List Message),
      RoleOK cur → (∀ x ∈ done, RoleOK x) →
      (∀ x ∈ rest, x.role = "system" ∨ x.role = "user" ∨ x.role = "assistant") →
      ∀ x ∈ mergeGo cur done rest, RoleOK x := by
  induction rest with
  | nil =>
    intro cur done hcur hdone _ x hx
    simp only [mergeGo, List.mem_reverse, List.mem_cons] at hx
    rcases hx with rfl | hx
    · exact hcur
    · exact hdone x hx
  | cons m rest ih =>
    intro cur done hcur hdone hrest
    unfold mergeGo
    by_cases hr : (systemToUser m).role = cur.role
    · rw [if_pos hr]
      exact ih _ done hcur hdone (fun x hx => hrest x (List.mem_cons_of_mem m hx))
    · rw [if_neg hr]
      apply ih
      · exact systemToUser_roleOK m (hrest m (by simp))
      · intro x hx
        rcases List.mem_cons.mp hx with rfl | hx2
        · exact hcur
        · exact hdone x hx2
      · exact fun x hx => hrest x (List.mem_cons_of_mem m hx)

/-- Helper: the first pass emits only `user`/`assistant` roles. -/
theorem mergeMessages_roles (msgs : List Message)
    (h : ∀ x ∈ msgs, x.role = "system" ∨ x.role = "user" ∨ x.role = "assistant") :
    ∀ x ∈ mergeMessages msgs, RoleOK x := by
  cases msgs with
  | nil => intro x hx; simp [mergeMessages] at hx
  | cons m rest =>
    apply mergeGo_roles
    · exact systemToUser_roleOK m (h m (by simp))
    · intro x hx; simp at hx
    · exact fun x hx => h x (List.mem_cons_of_mem m hx)

/-- Helper: past the first iteration, on a role-alternating input whose
head differs in role from the last message already emitted, the second
pass inserts nothing. -/
theorem pass2Go_alt (msgs : List Message) :
    ∀ (i : Nat) (final : List Message) (l : Message),
      i ≠ 0 → final.getLast? = some l → List.Chain' roleNe (l :: msgs) →
      pass2Go i final msgs = final ++ msgs := by
  induction msgs with
  | nil => intro i final l _ _ _; simp [pass2Go]
  | cons m rest ih =>
    intro i final l hi hlast hch
    have hlm : l.role ≠ m.role := (List.chain'_cons.mp hch).1
    have hstep : pass2Step final i m = final ++ [m] := by
      simp [pass2Step, hi, hlast, hlm]
    show pass2Go (i + 1) (pass2Step final i m) rest = _
    rw [hstep,
      ih (i + 1) (final ++ [m]) m (by omega) (List.getLast?_concat final)
        (List.chain'_cons.mp hch).2]
    simp

/-- Helper: on a role-alternating input the second pass is the identity
when the first message is a `user` turn, and otherwise only prepends the
dummy `user` greeting. -/
theorem pass2_closed (ms : List Message) (h : List.Chain' roleNe ms) :
    (pass2Go 0 [] ms = ms ∧ ∀ m0, ms.head? = some m0 → m0.role = "user") ∨
      (∃ m rest, ms = m :: rest ∧ m.role ≠ "user" ∧
        pass2Go 0 [] ms = { role := "user", content := "Hello" } :: ms) := by
  cases ms with
  | nil =>
    left
    exact ⟨rfl, fun m0 hm => by cases hm⟩
  | cons m rest =>
    by_cases hu : m.role = "user"
    · left
      constructor
      · have hstep : pass2Step [] 0 m = [m] := by
          simp [pass2Step, hu]
        show pass2Go 1 (pass2Step [] 0 m) rest = _
        rw [hstep, pass2Go_alt rest 1 [m] m (by omega) rfl h]
        rfl
      · intro m0 hm0
        rw [List.head?_cons, Option.some.injEq] at hm0
        subst hm0
        exact hu
    · right
      refine ⟨m, rest, rfl, hu, ?_⟩
      have hstep : pass2Step [] 0 m = [{ role := "user", content := "Hello" }, m] := by
        simp [pass2Step, hu]
      show pass2Go 1 (pass2Step [] 0 m) rest = _
      rw [hstep,
        pass2Go_alt rest 1 [{ role := "user", content := "Hello" }, m] m (by omega) rfl h]
      rfl

/-- Claim C6: for inputs with roles among system/user/assistant, the Gemma
preprocessing emits only `user`/`assistant` turns, starts with a `user`
turn whenever the output is non-empty, and never emits two consecutive
turns of the same role; on the input `(system, system, assistant, user)`
the two leading system turns are merged into one `user` turn whose content
joins the two contents with a blank line. -/
theorem gemma_message_normalization :
    (∀ msgs : List Message,
        (∀ x ∈ msgs, x.role = "system" ∨ x.role = "user" ∨ x.role = "assistant") →
        (∀ x ∈ process_gemma_messages msgs, x.role = "user" ∨ x.role = "assistant") ∧
          (∀ m0, (process_gemma_messages msgs).head? = some m0 → m0.role = "user") ∧
          List.Chain' roleNe (process_gemma_messages msgs)) ∧
    (∀ a b c d : String,
        process_gemma_messages
            [⟨"system", a⟩, ⟨"system", b⟩, ⟨"assistant", c⟩, ⟨"user", d⟩] =
          [⟨"user", a ++ "\n\n" ++ b⟩, ⟨"assistant", c⟩, ⟨"user", d⟩]) := by
  constructor
  · intro msgs hroles
    have hch := mergeMessages_chain msgs
    have hrl := mergeMessages_roles msgs hroles
    unfold process_gemma_messages
    rcases pass2_closed (mergeMessages msgs) hch with ⟨heq, hhead⟩ | ⟨m, rest, hms, hmrole, heq⟩
    · rw [heq]
      exact ⟨hrl, hhead, hch⟩
    · rw [heq]
      refine ⟨?_, ?_, ?_⟩
      · intro x hx
        rcases List.mem_cons.mp hx with rfl | hx2
        · left; rfl
        · exact hrl x hx2
      · intro m0 hm0
        rw [List.head?_cons, Option.some.injEq] at hm0
        subst hm0
        rfl
      · rw [hms, List.chain'_cons]
        refine ⟨fun he => hmrole he.symm, ?_⟩
        rw [← hms]
        exact hch
  · intro a b c d
    rfl

/-- Witness for C6 at a single assistant turn: the output gains a leading
dummy user turn. -/
theorem gemma_message_normalization_witness :
    (∀ x ∈ ([⟨"assistant", "x"⟩] : List Message),
        x.role = "system" ∨ x.role = "user" ∨ x.role = "assistant") ∧
      ∀ m0, (process_gemma_messages [⟨"assistant", "x"⟩]).head? = some m0 →
        m0.role = "user" := by
  have h : ∀ x ∈ ([⟨"assistant", "x"⟩] : List Message),
      x.role = "system" ∨ x.role = "user" ∨ x.role = "assistant" := by
    intro x hx
    rw [List.mem_singleton] at hx
    subst hx
    right; right; rfl
  exact ⟨h, (gemma_message_normalization.1 [⟨"assistant", "x"⟩] h).2.1⟩

end ModelUtils
